import Mathlib

/-!
Verification development for the certificate rendering engine of the
meeting-manager application (`app/services/certificate_service.py` and the
fallback generator in `app/services/event_service.py`).

The Python code is shallowly embedded: dynamic dict-shaped layout data becomes
structures with optional fields, the ambient application state (static root,
upload folder, platform, filesystem) becomes an explicit `Env` record, and the
exception behaviour of the HTML construction becomes an `Except`-valued
function.  Python string primitives (`str.replace`, `str.strip`, `float(...)`,
`int(...)`, `urllib.parse.urlparse(...).path`, `os.path` predicates) are
modelled by executable functions on character lists; each model notes the
part of the runtime semantics it covers.
-/

/-- The characters stripped by Python `str.strip()` (ASCII whitespace set;
the rare unicode whitespace stripping of CPython is not modelled). -/
def isPySpace (c : Char) : Bool :=
  c = ' ' || c = '\t' || c = '\n' || c = '\r' || c = '\x0b' || c = '\x0c'

/-- Drop trailing characters satisfying `p` (the right half of `str.strip()`),
defined structurally so that it evaluates by kernel reduction. -/
def rdropWhileP (p : Char → Bool) : List Char → List Char
  | [] => []
  | c :: cs =>
    match rdropWhileP p cs with
    | [] => if p c then [] else [c]
    | d :: ds => c :: d :: ds

/-- Python `s.strip()` on a character list. -/
def pyStripL (l : List Char) : List Char :=
  rdropWhileP isPySpace (l.dropWhile isPySpace)

/-- Python `s.strip()`. -/
def pyStrip (s : String) : String :=
  String.mk (pyStripL s.toList)

/-- Python `s.replace(ab, '')` for a two-character pattern `[a, b]` with empty
replacement: removes every non-overlapping occurrence, scanning left to
right and continuing after each match, exactly as CPython `str.replace`. -/
def replace2 (a b : Char) : List Char → List Char
  | [] => []
  | [c] => [c]
  | c :: d :: rest =>
    if c = a ∧ d = b then replace2 a b rest
    else c :: replace2 a b (d :: rest)

/-- The `{` character, written by code so that no brace appears in a literal. -/
def lbrace : Char := Char.ofNat 123

/-- The `}` character. -/
def rbrace : Char := Char.ofNat 125

/-- Python `s.startswith(pre)`. -/
def strStartsWith (s pre : String) : Bool :=
  pre.toList.isPrefixOf s.toList

/-- Python `s.endswith(suf)`. -/
def strEndsWith (s suf : String) : Bool :=
  suf.toList.isSuffixOf s.toList

/-- Drop the first `n` characters of a string. -/
def strDrop (s : String) (n : Nat) : String :=
  String.mk (s.toList.drop n)

/-- Python `s.lstrip('/')`. -/
def stripSlashes (s : String) : String :=
  String.mk (s.toList.dropWhile (fun c => c = '/'))

/-- The value of a Python `float`, modelled exactly: finite values are kept as
a decimal fixed-point pair `num / 10 ^ scale` (IEEE-754 rounding and
overflow-to-infinity of the runtime are not modelled; the dimension strings
the layouts use are of moderate size, where the model agrees with CPython),
plus signed infinity and NaN, which `float(...)` produces for the literals
`inf`/`infinity`/`nan`. -/
inductive PyFloat where
  | finite (num : Int) (scale : Nat)
  | inf (neg : Bool)
  | nan
deriving DecidableEq

/-- Negation of a parsed float (for a leading `-` sign). -/
def PyFloat.neg : PyFloat → PyFloat
  | .finite num scale => .finite (-num) scale
  | .inf b => .inf (!b)
  | .nan => .nan

/-- Numeric value of a digit list, most significant first. -/
def digitsVal (ds : List Char) : Nat :=
  ds.foldl (fun a c => a * 10 + (c.toNat - 48)) 0

/-- Parse the part of a Python float literal after the optional sign:
`inf`/`infinity`/`nan` (case-insensitive), or decimal digits with an optional
point and an optional exponent.  Underscored literals (`1_0`) are not
modelled. -/
def pyFloatAux (l : List Char) : Option PyFloat :=
  let ll := l.map Char.toLower
  if ll = [ 'i', 'n', 'f' ] ∨ ll = [ 'i', 'n', 'f', 'i', 'n', 'i', 't', 'y' ] then
    some (.inf false)
  else if ll = [ 'n', 'a', 'n' ] then
    some .nan
  else
    let ip := ll.takeWhile Char.isDigit
    let r1 := ll.dropWhile Char.isDigit
    let fp :=
      match r1 with
      | '.' :: rest => rest.takeWhile Char.isDigit
      | _ => []
    let r2 :=
      match r1 with
      | '.' :: rest => rest.dropWhile Char.isDigit
      | _ => r1
    if ip.isEmpty ∧ fp.isEmpty then none
    else
      let mantissa := digitsVal (ip ++ fp)
      let scale := fp.length
      match r2 with
      | [] => some (.finite (Int.ofNat mantissa) scale)
      | 'e' :: rest =>
        let eneg := match rest with | '-' :: _ => true | _ => false
        let rest2 := match rest with | '+' :: t => t | '-' :: t => t | t => t
        let eds := rest2.takeWhile Char.isDigit
        let rest3 := rest2.dropWhile Char.isDigit
        if eds.isEmpty ∨ ¬ rest3.isEmpty then none
        else if eneg then
          some (.finite (Int.ofNat mantissa) (scale + digitsVal eds))
        else
          some (.finite (Int.ofNat (mantissa * 10 ^ digitsVal eds)) scale)
      | _ => none

/-- Python `float(s)`: strips whitespace, handles an optional sign, then
parses the literal; `none` models the `ValueError` that `float` raises on an
unparseable string. -/
def pyFloat? (s : String) : Option PyFloat :=
  match pyStripL s.toList with
  | '+' :: rest => pyFloatAux rest
  | '-' :: rest => (pyFloatAux rest).map PyFloat.neg
  | rest => pyFloatAux rest

/-- `str(val).replace('px', '').strip()` from `parse_dim`. -/
def dimRemainder (s : String) : String :=
  pyStrip (String.mk (replace2 'p' 'x' s.toList))

/-- The float the dimension remainder parses to, if any. -/
def dimFloat : Option String → Option PyFloat
  | none => none
  | some s => pyFloat? (dimRemainder s)

/-- `parse_dim` from `CertificateService._render_html_from_layout`
(certificate_service.py lines 185-197).  Inputs are the style values as
strings (`str(val)` is applied by the source before any string operation;
a JSON `null` style value and an absent key both resolve to `"auto"` and are
merged into `none`).  The `.error` case models the uncaught `OverflowError`
that `int(float('inf'))` raises: the `except` clause catches only
`ValueError` and `TypeError`. -/
def parse_dim (val : Option String) : Except String String :=
  match val with
  | none => .ok "auto"
  | some v =>
    if v = "auto" then .ok "auto"
    else
      let sVal := dimRemainder v
      if sVal = "" then .ok "auto"
      else
        match pyFloat? sVal with
        | none => .ok "auto"
        | some .nan => .ok "auto"
        | some (.inf true) => .ok "auto"
        | some (.inf false) => .error "OverflowError"
        | some (.finite num scale) =>
          if 0 ≤ num then .ok (toString (num.toNat / 10 ^ scale))
          else .ok "auto"

/-- The ambient application state `_render_html_from_layout` reads: the
absolute static root (`os.path.abspath(current_app.static_folder)`), the
configured `UPLOAD_FOLDER` (modelled as an already-absolute path; the source
calls `os.path.abspath` on it where it is used relative), whether the host is
Windows (`os.name == 'nt'`), and the filesystem-existence oracle
(`os.path.exists`). -/
structure Env where
  staticRoot : String
  uploadFolder : Option String
  isWindows : Bool
  fsExists : String → Bool

/-- Scan for the first occurrence of `pat` and return what follows it. -/
def afterSubstr (pat : List Char) : List Char → Option (List Char)
  | [] => none
  | c :: cs =>
    if pat.isPrefixOf (c :: cs) then some ((c :: cs).drop pat.length)
    else afterSubstr pat cs

/-- `urllib.parse.urlparse(u).path`, modelled for the reference shapes the
layouts use: the fragment (after `#`) and query (after `?`) are cut off; if a
`scheme://netloc` head is present the path starts at the first `/` after the
netloc, otherwise the whole remainder is the path.  (The bare `scheme:path`
form without `//` is not modelled.) -/
def urlPath (u : String) : String :=
  let l := u.toList.takeWhile (fun c => c ≠ '#')
  let l := l.takeWhile (fun c => c ≠ '?')
  match afterSubstr [ ':', '/', '/' ] l with
  | none => String.mk l
  | some rest => String.mk (rest.dropWhile (fun c => c ≠ '/'))

/-- POSIX `os.path.join` for the two-argument calls the source makes.
Windows separator handling is not modelled; `os.path.abspath` around the join
is the identity here because the left argument is an already-absolute root
and the right argument is prefix-stripped (no `..` normalization arises). -/
def osPathJoin (a b : String) : String :=
  if strStartsWith b "/" then b
  else if strEndsWith a "/" then a ++ b
  else a ++ "/" ++ b

/-- `os.path.isabs` on a character list: on POSIX a leading `/`; on Windows
(`ntpath.isabs`) a rooted path (leading slash or backslash) or a drive-letter
path `X:\\` / `X:/`. -/
def osIsAbsL (isWin : Bool) : List Char → Bool
  | [] => false
  | c :: rest =>
    if isWin then
      c = '\\' || c = '/' ||
        (match rest with
         | d :: e :: _ => c.isAlpha && d = ':' && (e = '/' || e = '\\')
         | _ => false)
    else c = '/'

/-- `os.path.isabs` under the platform of `env`. -/
def osIsAbs (isWin : Bool) (s : String) : Bool :=
  osIsAbsL isWin s.toList

/-- The `file://` URI construction the source repeats: on Windows
`'file:///' + p.replace('\\', '/')`, otherwise `'file://' + p`. -/
def fileUri (isWin : Bool) (p : String) : String :=
  if isWin then
    "file:///" ++ String.mk (p.toList.map (fun c => if c = '\\' then '/' else c))
  else "file://" ++ p

/-- The flat string-keyed context mapping, as a first-match association
list (no duplicate keys are built by the source). -/
abbrev Context := List (String × String)

/-- `context.get(key)` / `context.get(key, default)` support. -/
def ctxGet : Context → String → Option String
  | [], _ => none
  | (k, v) :: rest, key => if k = key then some v else ctxGet rest key

/-- The `style` object of an element.  Every field is optional; an absent key
and a JSON `null` value behave identically downstream (both resolve to the
engine default), so both are `none`. -/
structure Style where
  width : Option String := none
  height : Option String := none
  fontSize : Option String := none
  fontFamily : Option String := none
  fontWeight : Option String := none
  color : Option String := none
  textAlign : Option String := none

/-- One element of `layout_data['elements']` as the source reads it:
`el.get('type')`, `el.get('x', 0)`, `el.get('y', 0)`, `el.get('content', '')`,
`el.get('style', {})`.  Coordinates are modelled as integers (the editor
writes integral pixel positions). -/
structure Element where
  type : Option String := none
  x : Option Int := none
  y : Option Int := none
  content : Option String := none
  style : Style := {}

/-- `layout_data`: `layout_data.get('elements', [])` and
`layout_data.get('backgroundImage')`. -/
structure LayoutData where
  elements : List Element := []
  backgroundImage : Option String := none

/-- Python `x or default` for the font-style fields: `None` and the empty
string both fall back to the default. -/
def orDefault (v : Option String) (d : String) : String :=
  match v with
  | none => d
  | some s => if s = "" then d else s

/-- The font-styling tail appended to `common_style` for `text`/`variable`
elements (defaults `16px` / `Arial` / `normal` / `#000000` / `left`). -/
def fontStyleOf (st : Style) : String :=
  " font-size: " ++ orDefault st.fontSize "16px" ++
  "; font-family: " ++ orDefault st.fontFamily "Arial" ++
  "; font-weight: " ++ orDefault st.fontWeight "normal" ++
  "; color: " ++ orDefault st.color "#000000" ++
  "; text-align: " ++ orDefault st.textAlign "left" ++ ";"

/-- The `common_style` string of the source: absolute position at `(x, y)`,
then `width`/`height` rules when the parsed dimensions are not `auto`, then
the font styling when the element is textual. -/
def commonStyleOf (x y : Int) (width height : String) (textual : Bool) (st : Style) : String :=
  let s := "position: absolute; left: " ++ toString x ++ "px; top: " ++ toString y ++ "px;"
  let s := if width ≠ "auto" then s ++ " width: " ++ width ++ "px;" else s
  let s := if height ≠ "auto" then s ++ " height: " ++ height ++ "px;" else s
  if textual then s ++ fontStyleOf st else s

/-- The tail of the `<img>` tag emitted by both the signature special case
and the `image` branch (identical formatting in the source). -/
def imgStyleTail (x y : Int) (w h : String) : String :=
  "\" style=\"position: absolute; left: " ++ toString x ++ "px; top: " ++ toString y ++
  "px; width: " ++ w ++ "; height: " ++ h ++ "; display: block;\">"

/-- The `<img>` tag emitted for signature values and `image` elements. -/
def imgTag (src : String) (x y : Int) (w h : String) : String :=
  "<img src=\"" ++ src ++ imgStyleTail x y w h

/-- `content.replace('{{', '').replace('}}', '').strip()` on a list. -/
def stripKeyL (l : List Char) : List Char :=
  pyStripL (replace2 rbrace rbrace (replace2 lbrace lbrace l))

/-- The binding key of a `variable` element. -/
def stripKey (s : String) : String :=
  String.mk (stripKeyL s.toList)

/-- The three-branch asset resolution of the `image` branch
(certificate_service.py lines 243-264): `/static/`-prefixed paths are
rewritten under the static root, `/uploads/`-prefixed paths under the
configured upload folder, anything else is left untouched; a rewritten path
that exists on disk becomes a `file://` URI, otherwise the original
reference passes through.  (`path.replace(prefix, '', 1)` is prefix removal
because the branch guard guarantees the first occurrence is at position 0.) -/
def resolveImage (env : Env) (src : String) : String :=
  let path := urlPath src
  let absPath : Option String :=
    if strStartsWith path "/static/" then
      some (osPathJoin env.staticRoot (stripSlashes (strDrop path 8)))
    else if strStartsWith path "/uploads/" then
      match env.uploadFolder with
      | some uf => some (osPathJoin uf (stripSlashes (strDrop path 9)))
      | none => none
    else none
  match absPath with
  | some p => if env.fsExists p then fileUri env.isWindows p else src
  | none => src

/-- The CSS rule text the background block emits around a reference. -/
def bgCss (u : String) : String :=
  "background-image: url(\"" ++ u ++ "\"); background-size: cover; background-position: center;"

/-- The background resolution of the compositor (certificate_service.py
lines 274-300): only the `/static/` prefix is rewritten (to
`os.path.join(static_root, rel)`), and only an existing rewritten path
becomes a `file://` URI; every other truthy reference — including
`/uploads/`-prefixed ones — passes through raw. -/
def resolveBackground (env : Env) (bg : String) : String :=
  let path := urlPath bg
  if strStartsWith path "/static/" then
    let p := osPathJoin env.staticRoot (stripSlashes (strDrop path 8))
    if env.fsExists p then bgCss (fileUri env.isWindows p) else bgCss bg
  else bgCss bg

/-- The per-element fragment, given the two parsed dimensions.  This is the
body of the `for el in elements` loop after the `parse_dim` calls. -/
def renderElementCore (env : Env) (ctx : Context) (el : Element)
    (width height : String) : String :=
  let elType := el.type
  let x := el.x.getD 0
  let y := el.y.getD 0
  let content := el.content.getD ""
  let textual := elType = some "text" ∨ elType = some "variable"
  let commonStyle := commonStyleOf x y width height (decide textual) el.style
  if elType = some "text" then
    "<div style=\"" ++ commonStyle ++ "\">" ++ content ++ "</div>"
  else if elType = some "variable" then
    let key := stripKey content
    let val := (ctxGet ctx key).getD content
    if key = "signature" ∧ val ≠ "" then
      let imgSrc := if osIsAbs env.isWindows val then fileUri env.isWindows val else val
      let imgW := if width ≠ "auto" then width ++ "px" else "200px"
      let imgH := if height ≠ "auto" then height ++ "px" else "auto"
      imgTag imgSrc x y imgW imgH
    else
      "<div style=\"" ++ commonStyle ++ "\">" ++ val ++ "</div>"
  else if elType = some "image" then
    let imgSrc := resolveImage env content
    let imgW := if width ≠ "auto" then width ++ "px" else "auto"
    let imgH := if height ≠ "auto" then height ++ "px" else "auto"
    imgTag imgSrc x y imgW imgH
  else ""

/-- One loop iteration: the two `parse_dim` calls run first (width, then
height), and an uncaught exception from either aborts the whole render. -/
def renderElement (env : Env) (ctx : Context) (el : Element) : Except String String :=
  match parse_dim (some (el.style.width.getD "auto")),
        parse_dim (some (el.style.height.getD "auto")) with
  | .ok w, .ok h => .ok (renderElementCore env ctx el w h)
  | .error e, _ => .error e
  | .ok _, .error e => .error e

/-- The `elements_html` accumulation over the element list, in list order;
the first exception aborts the loop. -/
def renderElements (env : Env) (ctx : Context) : List Element → Except String String
  | [] => .ok ""
  | el :: rest =>
    match renderElement env ctx el with
    | .error e => .error e
    | .ok frag =>
      match renderElements env ctx rest with
      | .error e => .error e
      | .ok restHtml => .ok (frag ++ restHtml)

/-- The fixed page shell of the compositor: A4 page at zero margin and the
794x1123 `certificate-container` canvas carrying the background style and the
concatenated fragments (the f-string at certificate_service.py lines
302-325, with its leading/trailing layout whitespace reproduced). -/
def htmlShell (backgroundStyle elementsHtml : String) : String :=
  "\n        <!DOCTYPE html>\n        <html>\n        <head>\n            <meta charset=\"utf-8\">\n            <style>\n                @page \x7b size: A4; margin: 0; \x7d\n                body \x7b margin: 0; padding: 0; -webkit-print-color-adjust: exact; print-color-adjust: exact; \x7d\n                .certificate-container \x7b\n                    position: relative;\n                    width: 794px;\n                    height: 1123px;\n                    overflow: hidden;\n                    " ++ backgroundStyle ++ "\n                \x7d\n            </style>\n        </head>\n        <body>\n            <div class=\"certificate-container\">\n                " ++ elementsHtml ++ "\n            </div>\n        </body>\n        </html>\n        "

/-- `CertificateService._render_html_from_layout`: renders every element in
list order, then resolves the (truthy) background, then wraps both in the
page shell.  The `Except` layer carries the one uncaught exception the body
can raise (the `parse_dim` overflow). -/
def render_html_from_layout (env : Env) (layout : LayoutData) (ctx : Context) :
    Except String String :=
  match renderElements env ctx layout.elements with
  | .error e => .error e
  | .ok elementsHtml =>
    let backgroundStyle :=
      match layout.backgroundImage with
      | some bg => if bg ≠ "" then resolveBackground env bg else ""
      | none => ""
    .ok (htmlShell backgroundStyle elementsHtml)

/-- The registration fields the generation paths read (database retrieval by
id is outside the embedding; the record is passed directly). -/
structure RegRec where
  firstName : String
  lastName : String
  attended : Bool

/-- The event fields the generation paths read.  `dateFormatted` carries the
`event.date.strftime("%d/%m/%Y")` result (date formatting is not modelled);
a falsy `template_id`/`signature_filename` is `none`. -/
structure EventRec where
  templateId : Option Nat := none
  title : String := ""
  dateFormatted : String := ""
  organizer : Option String := none
  eligibleHours : Option Nat := none
  signatureFilename : Option String := none

/-- The context dictionary built by `generate_certificate_pdf`
(certificate_service.py lines 115-145): the six standard bindings plus the
signature entry, which is a `file://` URI when the configured signature file
exists under the upload folder and the empty string otherwise. -/
def build_certificate_context (env : Env) (ev : EventRec) (reg : RegRec) : Context :=
  let sig :=
    match ev.signatureFilename with
    | none => ""
    | some fn =>
      match env.uploadFolder with
      | none => ""
      | some uf =>
        let p := osPathJoin uf fn
        if env.fsExists p then fileUri env.isWindows p else ""
  [("nom", reg.lastName), ("prenom", reg.firstName), ("date", ev.dateFormatted),
   ("event_name", ev.title), ("organizer", ev.organizer.getD ""),
   ("eligible_hours", toString (ev.eligibleHours.getD 0)),
   ("signature", sig)]

/-- The distinguishable failures of the primary generation path. -/
inductive GenError where
  | renderingUnavailable
  | assignedTemplateNotFound
  | fallbackGenerationFailed
  | renderFailure (msg : String)
deriving DecidableEq

/-- The produced document: the flow-layout reportlab certificate (whose
bytes are abstracted — reportlab always builds a non-empty document from the
sequential paragraphs) or the WeasyPrint document driven by the composed
HTML. -/
inductive PdfDoc where
  | fallback
  | templated (html : String)
deriving DecidableEq

/-- `CertificateService.generate_certificate_pdf` (certificate_service.py
lines 82-160): the `WEASYPRINT_AVAILABLE` guard raises the
"PDF generation is currently unavailable" `MeetingManagerError` before
anything else; with no `template_id` it delegates to
`EventService.generate_certificate_service` (which, for a template-less
event, runs the reportlab generator — inlined here as its attended check,
see `generate_certificate_service`) and raises the fallback error when that
returns `None`; with a `template_id` it requires the template record and
composes the document from its layout. -/
def generate_certificate_pdf (weasy : Bool) (templates : Nat → Option LayoutData)
    (env : Env) (ev : EventRec) (reg : RegRec) : Except GenError PdfDoc :=
  if weasy = false then .error .renderingUnavailable
  else
    match ev.templateId with
    | none =>
      if reg.attended then .ok .fallback else .error .fallbackGenerationFailed
    | some tid =>
      match templates tid with
      | none => .error .assignedTemplateNotFound
      | some layout =>
        match render_html_from_layout env layout (build_certificate_context env ev reg) with
        | .ok html => .ok (.templated html)
        | .error e => .error (.renderFailure e)

/-- `EventService.generate_certificate_service` (event_service.py lines
655-680): `None` for a non-attended registration; for an event with a
custom template it calls `CertificateService.generate_certificate_pdf` and
swallows every exception into `None`; otherwise it runs the reportlab
flow-layout generator `EventService._generate_certificate_pdf`, which has no
WeasyPrint dependency. -/
def generate_certificate_service (weasy : Bool) (templates : Nat → Option LayoutData)
    (env : Env) (ev : EventRec) (reg : RegRec) : Option PdfDoc :=
  if reg.attended = false then none
  else
    match ev.templateId with
    | some _ =>
      match generate_certificate_pdf weasy templates env ev reg with
      | .ok p => some p
      | .error _ => none
    | none => some .fallback

/-- `replace2` keeps a head character that does not start the pattern. -/
theorem replace2_cons_ne (a b c : Char) (t : List Char) (h : ¬ c = a) :
    replace2 a b (c :: t) = c :: replace2 a b t := by
  cases t with
  | nil => rfl
  | cons d ts => simp [replace2, h]

/-- Unfolding equation of `rdropWhileP` on a cons cell. -/
theorem rdropWhileP_cons_eq (p : Char → Bool) (c : Char) (t : List Char) :
    rdropWhileP p (c :: t) =
      match rdropWhileP p t with
      | [] => if p c then [] else [c]
      | d :: ds => c :: d :: ds := rfl

/-- `rdropWhileP` keeps a head the predicate rejects. -/
theorem rdropWhileP_cons_nf (p : Char → Bool) (c : Char) (t : List Char)
    (h : p c = false) : ∃ t2, rdropWhileP p (c :: t) = c :: t2 := by
  rw [rdropWhileP_cons_eq]
  cases hm : rdropWhileP p t with
  | nil => exact ⟨[], by simp [h]⟩
  | cons d ds => exact ⟨d :: ds, rfl⟩

/-- A nonempty `rdropWhileP` result starts with the original head. -/
theorem rdropWhileP_head (p : Char → Bool) (d : Char) (t e : List Char) (c : Char)
    (h : rdropWhileP p (d :: t) = c :: e) : c = d := by
  rw [rdropWhileP_cons_eq] at h
  cases hm : rdropWhileP p t with
  | nil =>
    rw [hm] at h
    by_cases hp : p d
    · simp [hp] at h
    · simp [hp] at h
      exact h.1.symm
  | cons f fs =>
    rw [hm] at h
    exact (List.cons.inj h).1.symm

/-- `pyStripL` keeps a non-whitespace head. -/
theorem pyStripL_cons (c : Char) (t : List Char) (h : isPySpace c = false) :
    ∃ t2, pyStripL (c :: t) = c :: t2 := by
  unfold pyStripL
  rw [List.dropWhile_cons, h]
  exact rdropWhileP_cons_nf _ _ _ h

/-- `pyStripL` keeps the first two characters when the head is
non-whitespace, except when everything after the head is stripped. -/
theorem pyStripL_cons2 (c d : Char) (t : List Char) (hc : isPySpace c = false) :
    pyStripL (c :: d :: t) = [c] ∨ ∃ t2, pyStripL (c :: d :: t) = c :: d :: t2 := by
  unfold pyStripL
  rw [List.dropWhile_cons, hc]
  have hred : (if false = true then List.dropWhile isPySpace (d :: t) else c :: d :: t)
      = c :: d :: t := rfl
  rw [hred, rdropWhileP_cons_eq]
  cases hm : rdropWhileP isPySpace (d :: t) with
  | nil => left; simp [hc]
  | cons e es =>
    right
    have he : e = d := rdropWhileP_head _ _ _ _ _ hm
    subst he
    exact ⟨es, rfl⟩

/-- `stripKeyL` keeps a head that is not a brace and not whitespace. -/
theorem stripKeyL_head (c : Char) (t : List Char)
    (hlb : ¬ c = lbrace) (hrb : ¬ c = rbrace) (hws : isPySpace c = false) :
    ∃ t2, stripKeyL (c :: t) = c :: t2 := by
  unfold stripKeyL
  rw [replace2_cons_ne _ _ _ _ hlb, replace2_cons_ne _ _ _ _ hrb]
  exact pyStripL_cons _ _ hws

/-- `stripKeyL` keeps the two leading characters when neither is a brace and
the head is non-whitespace (or collapses to the head alone). -/
theorem stripKeyL_head2 (c d : Char) (t : List Char)
    (hclb : ¬ c = lbrace) (hcrb : ¬ c = rbrace) (hcws : isPySpace c = false)
    (hdlb : ¬ d = lbrace) (hdrb : ¬ d = rbrace) :
    stripKeyL (c :: d :: t) = [c] ∨ ∃ t2, stripKeyL (c :: d :: t) = c :: d :: t2 := by
  unfold stripKeyL
  rw [replace2_cons_ne _ _ _ _ hclb, replace2_cons_ne _ _ _ _ hdlb,
      replace2_cons_ne _ _ _ _ hcrb, replace2_cons_ne _ _ _ _ hdrb]
  exact pyStripL_cons2 _ _ _ hcws

/-- An alphabetic character is not Python whitespace. -/
theorem isAlpha_not_pyspace (c : Char) (h : c.isAlpha = true) : isPySpace c = false := by
  by_contra hh
  have h1 : isPySpace c = true := by revert hh; cases isPySpace c <;> simp
  unfold isPySpace at h1
  simp only [Bool.or_eq_true, decide_eq_true_eq] at h1
  rcases h1 with (((((h2 | h2) | h2) | h2) | h2) | h2) <;>
    (subst h2; exact absurd h (by decide))

/-- A head character that survives key-stripping and differs from `s` rules
out the key `signature`. -/
theorem stripKeyL_ne_signature (c : Char) (t : List Char)
    (hlb : ¬ c = lbrace) (hrb : ¬ c = rbrace) (hws : isPySpace c = false)
    (hs : ¬ c = 's') :
    stripKeyL (c :: t) ≠ [ 's', 'i', 'g', 'n', 'a', 't', 'u', 'r', 'e' ] := by
  obtain ⟨t2, ht⟩ := stripKeyL_head c t hlb hrb hws
  rw [ht]
  intro h
  exact hs (List.cons.inj h).1

/-- A `variable` element whose stripped binding key is `signature` cannot
have content that `os.path.isabs` accepts: absolute paths start with a
slash, a backslash, or a drive-letter pair, and all three survive the brace
stripping and trimming, contradicting the leading `si` of `signature`. -/
theorem sigKeyL_not_abs (isWin : Bool) (l : List Char)
    (h : stripKeyL l = [ 's', 'i', 'g', 'n', 'a', 't', 'u', 'r', 'e' ]) :
    osIsAbsL isWin l = false := by
  cases l with
  | nil => rfl
  | cons c t =>
    have hslash : ¬ c = '/' := by
      intro hc
      subst hc
      exact stripKeyL_ne_signature _ t (by decide) (by decide) (by decide) (by decide) h
    have hbslash : ¬ c = '\\' := by
      intro hc
      subst hc
      exact stripKeyL_ne_signature _ t (by decide) (by decide) (by decide) (by decide) h
    cases isWin with
    | false => simp [osIsAbsL, hslash]
    | true =>
      cases t with
      | nil => simp [osIsAbsL, hslash, hbslash]
      | cons d ts =>
        cases ts with
        | nil => simp [osIsAbsL, hslash, hbslash]
        | cons e tss =>
          by_cases hca : c.isAlpha = true
          · by_cases hdc : d = ':'
            · exfalso
              subst hdc
              have hclb : ¬ c = lbrace := by
                intro hc; rw [hc] at hca; exact absurd hca (by decide)
              have hcrb : ¬ c = rbrace := by
                intro hc; rw [hc] at hca; exact absurd hca (by decide)
              have hcws : isPySpace c = false := isAlpha_not_pyspace c hca
              rcases stripKeyL_head2 c ':' (e :: tss) hclb hcrb hcws
                  (by decide) (by decide) with h3 | ⟨t2, h3⟩
              · rw [h3] at h
                simp at h
              · rw [h3] at h
                have h4 := (List.cons.inj h).2
                exact absurd (List.cons.inj h4).1 (by decide)
            · simp [osIsAbsL, hslash, hbslash, hdc]
          · have hca2 : c.isAlpha = false := by revert hca; cases c.isAlpha <;> simp
            simp [osIsAbsL, hslash, hbslash, hca2]

/-- String-level version of `sigKeyL_not_abs`. -/
theorem sigKey_not_abs (isWin : Bool) (content : String)
    (h : stripKey content = "signature") : osIsAbs isWin content = false := by
  apply sigKeyL_not_abs
  have hl : (stripKey content).data = "signature".data := by rw [h]
  exact hl

/-- `renderElement` reduces to the loop body when both dimensions parse. -/
theorem renderElement_ok (env : Env) (ctx : Context) (el : Element) (w h : String)
    (hw : parse_dim (some (el.style.width.getD "auto")) = .ok w)
    (hh : parse_dim (some (el.style.height.getD "auto")) = .ok h) :
    renderElement env ctx el = .ok (renderElementCore env ctx el w h) := by
  unfold renderElement
  rw [hw, hh]

/-- Every `common_style` string starts with the absolute-position rule. -/
theorem commonStyle_prefix (x y : Int) (w h : String) (b : Bool) (st : Style) :
    ∃ r, commonStyleOf x y w h b st =
      ("position: absolute; left: " ++ toString x ++ "px; top: " ++ toString y ++ "px;") ++ r := by
  unfold commonStyleOf
  by_cases hw : w = "auto" <;> by_cases hh : h = "auto" <;> cases b <;>
    simp only [hw, hh, ne_eq, not_true_eq_false, not_false_eq_true, if_true, if_false,
      ite_true, ite_false, Bool.false_eq_true, String.append_assoc] <;>
    first
      | exact ⟨"", (String.append_empty _).symm⟩
      | exact ⟨_, rfl⟩

/-- The dimension semantics described by the amended C1: `auto` for `None`
and the literal `auto`; otherwise, after removing every occurrence of the
substring `px` and trimming whitespace, `auto` unless the remainder parses
as a finite non-negative float, in which case the truncated integer. -/
def resolveDimensionAmendedSpec (v : Option String) : String :=
  match v with
  | none => "auto"
  | some s =>
    if s = "auto" then "auto"
    else
      match pyFloat? (dimRemainder s) with
      | some (.finite num scale) =>
        if 0 ≤ num then toString (num.toNat / 10 ^ scale) else "auto"
      | _ => "auto"

/-- C1 (counterexample): the claim says a non-negative number with any
trailing unit suffix resolves to the truncated integer of its numeric
prefix, so `resolveDimension("100em")` would be `100`; the code strips only
the literal `px` and returns `auto` for `100em`. -/
theorem parse_dim_em_suffix_counterexample :
    parse_dim (some "100em") = .ok "auto" ∧ parse_dim (some "100em") ≠ .ok "100" := by
  constructor
  · rfl
  · intro hcon
    have h1 : parse_dim (some "100em") = .ok "auto" := rfl
    rw [h1] at hcon
    exact absurd (Except.ok.inj hcon) (by decide)

/-- C1 (amended): for every dimension input whose `px`-stripped remainder is
not positive infinity (the C7 overflow defect), `resolveDimension` returns —
without raising — `auto` exactly for `None`, the literal `auto`, and every
remainder that is empty, unparseable, NaN, negative, or negative infinity;
and the truncated integer of the remainder's finite non-negative value
otherwise.  Only the literal substring `px` is stripped, not arbitrary unit
suffixes. -/
theorem parse_dim_amended_characterization (v : Option String)
    (hinf : dimFloat v ≠ some (PyFloat.inf false)) :
    parse_dim v = .ok (resolveDimensionAmendedSpec v) := by
  cases v with
  | none => rfl
  | some s =>
    unfold parse_dim resolveDimensionAmendedSpec
    by_cases hs : s = "auto"
    · simp [hs]
    · simp only [hs, if_false]
      by_cases he : dimRemainder s = ""
      · have hn : pyFloat? "" = none := rfl
        simp [he, hn]
      · have hd : dimFloat (some s) = pyFloat? (dimRemainder s) := rfl
        rw [hd] at hinf
        cases hf : pyFloat? (dimRemainder s) with
        | none => simp [he, hf]
        | some pf =>
          cases pf with
          | nan => simp [he, hf]
          | inf b =>
            cases b with
            | false => exact absurd hf hinf
            | true => simp [he, hf]
          | finite num scale => by_cases hnum : 0 ≤ num <;> simp [he, hf, hnum]

/-- C1 (witness): `150px` resolves to `150` through the amended
characterization, matching the spec's concrete scenario 3. -/
theorem parse_dim_amended_witness :
    parse_dim (some "150px") = .ok (resolveDimensionAmendedSpec (some "150px")) :=
  parse_dim_amended_characterization (some "150px") (by decide)

/-- Environment for the C2 counterexample: the referenced upload file
exists on disk. -/
def envC2 : Env :=
  { staticRoot := "/app/static", uploadFolder := some "/app/uploads",
    isWindows := false, fsExists := fun p => p = "/app/uploads/certificates/bg.png" }

/-- C2 (counterexample): an uploads-prefixed background reference whose
rewritten upload path exists on disk.  A `type="image"` element resolves the
same reference to a `file://` URI (three-branch protocol), but the
background block passes the raw reference through, so `composeDocument` does
not treat the background like `type="image"` assets. -/
theorem background_uploads_prefix_counterexample :
    envC2.fsExists "/app/uploads/certificates/bg.png" = true ∧
    resolveImage envC2 "/uploads/certificates/bg.png" =
      "file:///app/uploads/certificates/bg.png" ∧
    resolveBackground envC2 "/uploads/certificates/bg.png" =
      bgCss "/uploads/certificates/bg.png" ∧
    bgCss "/uploads/certificates/bg.png" ≠
      bgCss "file:///app/uploads/certificates/bg.png" ∧
    render_html_from_layout envC2
        { elements := [], backgroundImage := some "/uploads/certificates/bg.png" } [] =
      .ok (htmlShell (bgCss "/uploads/certificates/bg.png") "") :=
  ⟨rfl, rfl, rfl, by decide, rfl⟩

/-- Two prefixes that disagree at their second character cannot both start
the same string. -/
theorem not_static_of_uploads (s : String) (h : strStartsWith s "/uploads/" = true) :
    strStartsWith s "/static/" = false := by
  by_contra hh
  have h2 : strStartsWith s "/static/" = true := by
    revert hh; cases strStartsWith s "/static/" <;> simp
  unfold strStartsWith at h h2
  rw [List.isPrefixOf_iff_prefix] at h h2
  obtain ⟨t1, h1⟩ := h
  obtain ⟨t2, h3⟩ := h2
  rw [← h1] at h3
  have e1 : "/static/".toList = [ '/', 's', 't', 'a', 't', 'i', 'c', '/' ] := rfl
  have e2 : "/uploads/".toList = [ '/', 'u', 'p', 'l', 'o', 'a', 'd', 's', '/' ] := rfl
  rw [e1, e2] at h3
  simp at h3

/-- C2 (amended): the background block resolves only the `/static/` prefix;
every background reference whose path starts with the uploads prefix is
passed through unchanged as a raw CSS url — it is never rewritten under the
upload directory, unlike `type="image"` elements. -/
theorem background_non_static_passthrough (env : Env) (bg : String)
    (h : strStartsWith (urlPath bg) "/uploads/" = true) :
    resolveBackground env bg = bgCss bg := by
  have hns := not_static_of_uploads _ h
  simp only [resolveBackground]
  rw [hns]
  rfl

/-- C2 (witness): a concrete uploads-prefixed background passes through. -/
theorem background_non_static_passthrough_witness :
    resolveBackground envC2 "/uploads/other.png" = bgCss "/uploads/other.png" :=
  background_non_static_passthrough envC2 "/uploads/other.png" (by decide)

/-- Template store, environment, event and registration for the C3 bug
evaluation: an attended registration of a template-less event. -/
def templates3 : Nat → Option LayoutData := fun _ => none

/-- Environment for the C3 evaluation. -/
def env3 : Env :=
  { staticRoot := "/app/static", uploadFolder := none,
    isWindows := false, fsExists := fun _ => false }

/-- A template-less event. -/
def ev3 : EventRec := { templateId := none, title := "Team Meeting", dateFormatted := "01/06/2025" }

/-- An attended registration. -/
def reg3 : RegRec := { firstName := "Alice", lastName := "Martin", attended := true }

/-- C3 (code evaluation at the failing input): with WeasyPrint missing and
no template assigned, `CertificateService.generate_certificate_pdf` raises
the rendering-unavailable error before its fallback branch can run, even
though the reportlab fallback needs no WeasyPrint — as the last two
conjuncts show, `EventService.generate_certificate_service` produces the
fallback document for the same event and registration whether or not
WeasyPrint is present. -/
theorem no_template_missing_weasyprint_eval :
    generate_certificate_pdf false templates3 env3 ev3 reg3 = .error .renderingUnavailable ∧
    generate_certificate_service false templates3 env3 ev3 reg3 = some .fallback ∧
    generate_certificate_service true templates3 env3 ev3 reg3 = some .fallback :=
  ⟨rfl, rfl, rfl⟩

/-- Layout with a malformed style dimension that crashes the render. -/
def layoutInf : LayoutData :=
  { elements := [ { type := some "text", x := some 0, y := some 0,
                    content := some "hi", style := { width := some "inf" } } ] }

/-- Environment for the C7 evaluation. -/
def envC7 : Env :=
  { staticRoot := "/s", uploadFolder := none, isWindows := false, fsExists := fun _ => false }

/-- C7 (code evaluation at the failing input): the style dimension `inf` is
a malformed style dimension, yet the HTML construction raises: `float('inf')`
succeeds, `'inf' >= 0` holds, and `int(float('inf'))` raises an
`OverflowError` that the `except (ValueError, TypeError)` clause does not
catch, so one bad element aborts the whole render instead of degrading to
`auto`. -/
theorem render_raises_on_infinite_dimension :
    parse_dim (some "inf") = .error "OverflowError" ∧
    render_html_from_layout envC7 layoutInf [] = .error "OverflowError" :=
  ⟨rfl, rfl⟩

/-- C8: the HTML construction is a deterministic function of the template
layout, the context, and the filesystem/configuration state — everything
the source reads from ambient application state (static root, upload folder,
platform, file existence) is part of `Env`, so two calls on equal inputs
produce byte-identical HTML. -/
theorem render_html_deterministic (env1 env2 : Env) (l1 l2 : LayoutData) (c1 c2 : Context)
    (he : env1 = env2) (hl : l1 = l2) (hc : c1 = c2) :
    render_html_from_layout env1 l1 c1 = render_html_from_layout env2 l2 c2 := by
  subst he; subst hl; subst hc; rfl

/-- C8 (witness): the determinism theorem applied at a concrete input. -/
theorem render_html_deterministic_witness :
    render_html_from_layout env3 { elements := [], backgroundImage := none } [] =
      render_html_from_layout env3 { elements := [], backgroundImage := none } [] :=
  render_html_deterministic env3 env3 { elements := [], backgroundImage := none }
    { elements := [], backgroundImage := none } [] [] rfl rfl rfl

/-- C4: a `variable` element whose stripped binding key is absent from the
context renders — no missing-key error — and the emitted fragment carries
the original literal token text unchanged (`context.get(key, content)` falls
back to the raw content, which even the `signature` special case cannot
alter, since a token that strips to the key `signature` is never an absolute
path).  The two dimension hypotheses exclude the unrelated dimension-overflow
defect recorded at C7. -/
theorem variable_missing_key_roundtrip (env : Env) (ctx : Context) (el : Element)
    (w h : String)
    (hty : el.type = some "variable")
    (habs : ctxGet ctx (stripKey (el.content.getD "")) = none)
    (hw : parse_dim (some (el.style.width.getD "auto")) = .ok w)
    (hh : parse_dim (some (el.style.height.getD "auto")) = .ok h) :
    ∃ pre post, renderElement env ctx el = .ok (pre ++ (el.content.getD "") ++ post) := by
  rw [renderElement_ok env ctx el w h hw hh]
  simp only [renderElementCore, hty]
  simp only [Option.some.injEq, reduceIte, habs, Option.getD_none]
  by_cases hsig : stripKey (el.content.getD "") = "signature" ∧ (el.content.getD "") ≠ ""
  · rw [if_pos hsig, sigKey_not_abs env.isWindows _ hsig.1]
    simp only [Bool.false_eq_true, if_false]
    exact ⟨"<img src=\"", imgStyleTail (el.x.getD 0) (el.y.getD 0)
      (if w ≠ "auto" then w ++ "px" else "200px")
      (if h ≠ "auto" then h ++ "px" else "auto"), rfl⟩
  · rw [if_neg hsig]
    exact ⟨"<div style=\"" ++ commonStyleOf (el.x.getD 0) (el.y.getD 0) w h
      (decide (some "variable" = some "text" ∨ some "variable" = some "variable"))
      el.style ++ "\">", "</div>", rfl⟩

/-- Environment for the element-level witnesses. -/
def envW : Env :=
  { staticRoot := "/app/static", uploadFolder := some "/app/uploads",
    isWindows := false, fsExists := fun _ => false }

/-- A `variable` element bound to a key no context provides. -/
def elMissing : Element :=
  { type := some "variable", x := some 1, y := some 2,
    content := some "\x7b\x7bmissing_key\x7d\x7d" }

/-- C4 (witness): the unresolved token `missing_key` round-trips. -/
theorem variable_missing_key_roundtrip_witness :
    ∃ pre post, renderElement envW [] elMissing =
      .ok (pre ++ "\x7b\x7bmissing_key\x7d\x7d" ++ post) :=
  variable_missing_key_roundtrip envW [] elMissing "auto" "auto" rfl rfl rfl rfl

/-- C5: an element whose `type` is outside `{text, variable, image}` (a
missing `type` included) contributes the empty fragment and aborts nothing,
and deleting it from the element list leaves the rendered output unchanged —
the surrounding elements still render.  The dimension hypotheses exclude the
unrelated dimension-overflow defect recorded at C7 (the source parses
dimensions before dispatching on the type). -/
theorem unknown_type_contributes_nothing (env : Env) (ctx : Context) (el : Element)
    (pre post : List Element) (w h : String)
    (hty : el.type ≠ some "text" ∧ el.type ≠ some "variable" ∧ el.type ≠ some "image")
    (hw : parse_dim (some (el.style.width.getD "auto")) = .ok w)
    (hh : parse_dim (some (el.style.height.getD "auto")) = .ok h) :
    renderElement env ctx el = .ok "" ∧
    renderElements env ctx (pre ++ el :: post) = renderElements env ctx (pre ++ post) := by
  have hel : renderElement env ctx el = .ok "" := by
    rw [renderElement_ok env ctx el w h hw hh]
    simp only [renderElementCore, hty.1, hty.2.1, hty.2.2, if_false, reduceIte]
  refine ⟨hel, ?_⟩
  induction pre with
  | nil =>
    simp only [List.nil_append, renderElements, hel]
    cases hrest : renderElements env ctx post with
    | error e => rfl
    | ok r => rfl
  | cons q qs ih =>
    simp only [List.cons_append, renderElements]
    cases hq : renderElement env ctx q with
    | error e => rfl
    | ok f =>
      have ih2 : renderElements env ctx (qs.append (el :: post)) =
          renderElements env ctx (qs.append post) := ih
      rw [ih2]

/-- An element with an unrecognized type. -/
def elUnknown : Element :=
  { type := some "shape", x := some 3, y := some 4, content := some "zz" }

/-- A plain text element. -/
def elText : Element :=
  { type := some "text", x := some 7, y := some 8, content := some "Hello" }

/-- C5 (witness): the unknown-type element renders to nothing and dropping
it from a list that also contains a text element changes nothing. -/
theorem unknown_type_contributes_nothing_witness :
    renderElement envW [] elUnknown = .ok "" ∧
    renderElements envW [] ([ elText ] ++ elUnknown :: [ elText ]) =
      renderElements envW [] ([ elText ] ++ [ elText ]) :=
  unknown_type_contributes_nothing envW [] elUnknown [ elText ] [ elText ] "auto" "auto"
    ⟨by decide, by decide, by decide⟩ rfl rfl

/-- C6: a `variable` element whose key strips to `signature` and whose
context value is a non-empty absolute local filesystem path renders as an
`<img>` tag (not a text block): the value is converted to a `file://` URI
(triple-slash with backslash normalization on Windows, double-slash
otherwise — the `fileUri` model), the width is the resolved style width or
`200px` when the width resolved to `auto`, and the height is the resolved
height or `auto`. -/
theorem signature_variable_img_tag (env : Env) (ctx : Context) (el : Element)
    (val w h : String)
    (hty : el.type = some "variable")
    (hkey : stripKey (el.content.getD "") = "signature")
    (hval : ctxGet ctx "signature" = some val)
    (hne : val ≠ "")
    (habsp : osIsAbs env.isWindows val = true)
    (hw : parse_dim (some (el.style.width.getD "auto")) = .ok w)
    (hh : parse_dim (some (el.style.height.getD "auto")) = .ok h) :
    renderElement env ctx el =
      .ok (imgTag (fileUri env.isWindows val) (el.x.getD 0) (el.y.getD 0)
        (if w ≠ "auto" then w ++ "px" else "200px")
        (if h ≠ "auto" then h ++ "px" else "auto")) := by
  rw [renderElement_ok env ctx el w h hw hh]
  simp only [renderElementCore, hty]
  simp only [Option.some.injEq, reduceIte, hkey, hval, Option.getD_some]
  rw [if_neg (show ¬ ("variable" : String) = "text" by decide)]
  rw [if_pos (And.intro trivial hne)]
  rw [habsp]
  rfl

/-- A signature-bound `variable` element sized by the editor. -/
def elSig : Element :=
  { type := some "variable", x := some 100, y := some 500,
    content := some "\x7b\x7bsignature\x7d\x7d", style := { width := some "150px" } }

/-- C6 (witness): a POSIX absolute signature path becomes a double-slash
`file://` URI inside an `<img>` tag sized `150px` by `auto`. -/
theorem signature_variable_img_tag_witness :
    renderElement envW [("signature", "/app/uploads/sig.png")] elSig =
      .ok (imgTag (fileUri false "/app/uploads/sig.png") 100 500
        (if ("150" : String) ≠ "auto" then "150" ++ "px" else "200px")
        (if ("auto" : String) ≠ "auto" then "auto" ++ "px" else "auto")) :=
  signature_variable_img_tag envW [("signature", "/app/uploads/sig.png")] elSig
    "/app/uploads/sig.png" "150" "auto" rfl (by decide) rfl (by decide) (by decide) rfl rfl

/-- C9: the `<img>` special case of the signature binding fires only for a
non-empty resolved value — when the context maps `signature` to the empty
string (the configured signature file is missing on disk), the element
renders as the ordinary absolutely positioned text block with empty content,
and no `<img>` tag is emitted. -/
theorem signature_empty_value_text_block (env : Env) (ctx : Context) (el : Element)
    (w h : String)
    (hty : el.type = some "variable")
    (hkey : stripKey (el.content.getD "") = "signature")
    (hval : ctxGet ctx "signature" = some "")
    (hw : parse_dim (some (el.style.width.getD "auto")) = .ok w)
    (hh : parse_dim (some (el.style.height.getD "auto")) = .ok h) :
    renderElement env ctx el =
      .ok ("<div style=\"" ++ commonStyleOf (el.x.getD 0) (el.y.getD 0) w h true el.style
        ++ "\"></div>") := by
  rw [renderElement_ok env ctx el w h hw hh]
  simp only [renderElementCore, hty]
  simp only [Option.some.injEq, reduceIte, hkey, hval, Option.getD_some]
  rw [if_neg (show ¬ ("variable" : String) = "text" by decide)]
  rw [if_neg (by simp : ¬ (True ∧ ("" : String) ≠ ""))]
  rw [String.append_empty]
  rw [String.append_assoc]
  have hm : ("\">" : String) ++ "</div>" = "\"></div>" := rfl
  rw [hm]
  rfl

/-- C9 (witness): the signature element with an empty context value renders
as an empty text block. -/
theorem signature_empty_value_text_block_witness :
    renderElement envW [("signature", "")] elSig =
      .ok ("<div style=\"" ++ commonStyleOf 100 500 "150" "auto" true elSig.style
        ++ "\"></div>") :=
  signature_empty_value_text_block envW [("signature", "")] elSig
    "150" "auto" rfl (by decide) rfl rfl rfl


/-- A substring witness survives prepending. -/
theorem substr_append_left (a s m : String) (h : ∃ pre post, s = pre ++ m ++ post) :
    ∃ pre post, a ++ s = pre ++ m ++ post := by
  obtain ⟨p, q, hp⟩ := h
  exact ⟨a ++ p, q, by rw [hp]; simp only [String.append_assoc]⟩

/-- A substring witness survives appending. -/
theorem substr_append_right (s b m : String) (h : ∃ pre post, s = pre ++ m ++ post) :
    ∃ pre post, s ++ b = pre ++ m ++ post := by
  obtain ⟨p, q, hp⟩ := h
  exact ⟨p, q ++ b, by rw [hp]; simp only [String.append_assoc]⟩

/-- A `common_style` built at `x = 0` carries the rule `left: 0px`. -/
theorem commonStyle_x0_substr (y : Int) (w h : String) (b : Bool) (st : Style) :
    ∃ pre post, commonStyleOf 0 y w h b st = pre ++ "left: 0px" ++ post := by
  obtain ⟨r, hr⟩ := commonStyle_prefix 0 y w h b st
  refine ⟨"position: absolute; ", "; top: " ++ toString y ++ "px;" ++ r, ?_⟩
  rw [hr]
  simp only [String.append_assoc]
  rfl

/-- A `common_style` built at `y = 0` carries the rule `top: 0px`. -/
theorem commonStyle_y0_substr (x : Int) (w h : String) (b : Bool) (st : Style) :
    ∃ pre post, commonStyleOf x 0 w h b st = pre ++ "top: 0px" ++ post := by
  obtain ⟨r, hr⟩ := commonStyle_prefix x 0 w h b st
  refine ⟨"position: absolute; left: " ++ toString x ++ "px; ", ";" ++ r, ?_⟩
  rw [hr]
  simp only [String.append_assoc]
  rfl

/-- An `<img>` style tail built at `x = 0` carries the rule `left: 0px`. -/
theorem imgStyleTail_x0_substr (y : Int) (w h : String) :
    ∃ pre post, imgStyleTail 0 y w h = pre ++ "left: 0px" ++ post := by
  refine ⟨"\" style=\"position: absolute; ",
    "; top: " ++ toString y ++ "px; width: " ++ w ++ "; height: " ++ h
      ++ "; display: block;\">", ?_⟩
  simp only [imgStyleTail, String.append_assoc]
  rfl

/-- An `<img>` style tail built at `y = 0` carries the rule `top: 0px`. -/
theorem imgStyleTail_y0_substr (x : Int) (w h : String) :
    ∃ pre post, imgStyleTail x 0 w h = pre ++ "top: 0px" ++ post := by
  refine ⟨"\" style=\"position: absolute; left: " ++ toString x ++ "px; ",
    "; width: " ++ w ++ "; height: " ++ h ++ "; display: block;\">", ?_⟩
  simp only [imgStyleTail, String.append_assoc]
  rfl

/-- C10: every element missing the `x` or the `y` field — whatever its type,
and whether one or both coordinates are absent — still renders without
failing; the missing coordinate defaults to 0 (`el.get('x', 0)` /
`el.get('y', 0)`), so rendering the element is identical to rendering it
with the defaulted coordinates made explicit, and the emitted fragment
carries `left: 0px` (resp. `top: 0px`) for each absent coordinate — or is
the empty fragment, for the skipped unknown types of C5, which position
nothing.  The dimension hypotheses only exclude the orthogonal
dimension-overflow defect recorded at C7. -/
theorem missing_coordinates_default_zero (env : Env) (ctx : Context) (el : Element)
    (w h : String)
    (hw : parse_dim (some (el.style.width.getD "auto")) = .ok w)
    (hh : parse_dim (some (el.style.height.getD "auto")) = .ok h)
    (_hmiss : el.x = none ∨ el.y = none) :
    renderElement env ctx el = .ok (renderElementCore env ctx el w h) ∧
    renderElement env ctx el =
      renderElement env ctx { el with x := some (el.x.getD 0), y := some (el.y.getD 0) } ∧
    (el.x = none →
      renderElementCore env ctx el w h = "" ∨
      ∃ pre post, renderElementCore env ctx el w h = pre ++ "left: 0px" ++ post) ∧
    (el.y = none →
      renderElementCore env ctx el w h = "" ∨
      ∃ pre post, renderElementCore env ctx el w h = pre ++ "top: 0px" ++ post) := by
  refine ⟨renderElement_ok env ctx el w h hw hh, rfl, ?_, ?_⟩
  · intro hxn
    simp only [renderElementCore, imgTag, hxn, Option.getD_none]
    by_cases ht : el.type = some "text"
    · right
      rw [if_pos ht]
      exact substr_append_right _ _ _ (substr_append_right _ _ _
        (substr_append_right _ _ _ (substr_append_left _ _ _
          (commonStyle_x0_substr _ _ _ _ _))))
    · by_cases hv : el.type = some "variable"
      · right
        rw [if_neg ht, if_pos hv]
        split
        · exact substr_append_left _ _ _ (imgStyleTail_x0_substr _ _ _)
        · exact substr_append_right _ _ _ (substr_append_right _ _ _
            (substr_append_right _ _ _ (substr_append_left _ _ _
              (commonStyle_x0_substr _ _ _ _ _))))
      · by_cases hi : el.type = some "image"
        · right
          rw [if_neg ht, if_neg hv, if_pos hi]
          exact substr_append_left _ _ _ (imgStyleTail_x0_substr _ _ _)
        · left
          rw [if_neg ht, if_neg hv, if_neg hi]
  · intro hyn
    simp only [renderElementCore, imgTag, hyn, Option.getD_none]
    by_cases ht : el.type = some "text"
    · right
      rw [if_pos ht]
      exact substr_append_right _ _ _ (substr_append_right _ _ _
        (substr_append_right _ _ _ (substr_append_left _ _ _
          (commonStyle_y0_substr _ _ _ _ _))))
    · by_cases hv : el.type = some "variable"
      · right
        rw [if_neg ht, if_pos hv]
        split
        · exact substr_append_left _ _ _ (imgStyleTail_y0_substr _ _ _)
        · exact substr_append_right _ _ _ (substr_append_right _ _ _
            (substr_append_right _ _ _ (substr_append_left _ _ _
              (commonStyle_y0_substr _ _ _ _ _))))
      · by_cases hi : el.type = some "image"
        · right
          rw [if_neg ht, if_neg hv, if_pos hi]
          exact substr_append_left _ _ _ (imgStyleTail_y0_substr _ _ _)
        · left
          rw [if_neg ht, if_neg hv, if_neg hi]

/-- An `image` element missing only its `x` coordinate. -/
def elImgNoX : Element := { type := some "image", y := some 40, content := some "/pic.png" }

/-- C10 (witness): an image element missing only `x` renders, equals its
explicitly-defaulted copy, and its fragment carries `left: 0px`. -/
theorem missing_coordinates_default_zero_witness :
    renderElement envW [] elImgNoX = .ok (renderElementCore envW [] elImgNoX "auto" "auto") ∧
    renderElement envW [] elImgNoX =
      renderElement envW []
        { elImgNoX with x := some (elImgNoX.x.getD 0), y := some (elImgNoX.y.getD 0) } ∧
    (elImgNoX.x = none →
      renderElementCore envW [] elImgNoX "auto" "auto" = "" ∨
      ∃ pre post, renderElementCore envW [] elImgNoX "auto" "auto" =
        pre ++ "left: 0px" ++ post) ∧
    (elImgNoX.y = none →
      renderElementCore envW [] elImgNoX "auto" "auto" = "" ∨
      ∃ pre post, renderElementCore envW [] elImgNoX "auto" "auto" =
        pre ++ "top: 0px" ++ post) :=
  missing_coordinates_default_zero envW [] elImgNoX "auto" "auto" rfl rfl (Or.inl rfl)
